import Mathlib

/-!
Verification of the report-ordering utilities of qkay (`src/qkay/index.py`).

The module under verification extracts a sort key from report filenames
(`define_order`), sorts report lists with that key (`list_individual_reports`),
shuffles them reproducibly (`shuffle_reports`), relabels them
(`anonymize_reports`) and duplicates a random subset (`repeat_reports`).

Python strings are modelled as `List Char`; the handful of regular expressions
used by the code (`sub-(\w+)_`, `run-(\w+)_`, `ses-excl(\d+)_`,
`ses-pilot(\d+)_`, `ses-(\d+)_`, and the modality patterns, two of which use
`.*`) are modelled directly, with Python `re.search` semantics: the scan tries
every start position from the left, `\w+` and `\d+` are greedy with
backtracking, and `.` matches anything but a newline.  Raising exceptions is
modelled with `Except`.  The process-global pseudorandom generator of the
`random` module is modelled as explicit state threaded through the calls, and
in-place mutation of a caller's list is modelled by returning the post-call
state of the argument alongside the return value.
-/

namespace Qkay

/-- Word character of Python's regex `\w`, for ASCII input (letters, digits,
underscore). -/
def isWordChar (c : Char) : Bool := c.isAlphanum || c = '_'

/-- Numeric value of a run of decimal digit characters (base 10). -/
def digitsToNat (ds : List Char) : Nat :=
  ds.foldl (fun acc c => 10 * acc + (c.toNat - 48)) 0

/-- Index of the last occurrence of an underscore in `w`, if any. -/
def lastUnderscoreIdx (w : List Char) : Option Nat :=
  match w.reverse.findIdx? (fun c => c = '_') with
  | none => none
  | some r => some (w.length - 1 - r)

/-- Match of a regex `PRE(\w+)_` anchored at the head of `s`, returning the
capture.  `\w+` is greedy with backtracking, and an underscore is itself a word
character, so the capture is the longest word-character run after `PRE` whose
next character is an underscore; equivalently, the maximal word run cut at its
last underscore (which must sit at index at least 1 of the run). -/
def wordGroupAt (pre s : List Char) : Option (List Char) :=
  if pre.isPrefixOf s then
    let w := (s.drop pre.length).takeWhile isWordChar
    match lastUnderscoreIdx w with
    | some k => if 1 ≤ k then some (w.take k) else none
    | none => none
  else none

/-- Python `re.search` for a pattern `PRE(\w+)_`: try every start position from
the left, return the capture of the first position that matches. -/
def reSearchWordGroup (pre : List Char) : List Char → Option (List Char)
  | [] => none
  | c :: t =>
    match wordGroupAt pre (c :: t) with
    | some g => some g
    | none => reSearchWordGroup pre t

/-- Match of a regex `PRE(\d+)_` anchored at the head of `s`, returning the
captured number.  Digits are not underscores, so greediness is moot: the match
succeeds exactly when a nonempty maximal digit run after `PRE` is immediately
followed by an underscore. -/
def sesGroupAt (pre s : List Char) : Option Nat :=
  if pre.isPrefixOf s then
    let rest := s.drop pre.length
    let d := rest.takeWhile Char.isDigit
    match rest.drop d.length with
    | '_' :: _ => if d.isEmpty then none else some (digitsToNat d)
    | _ => none
  else none

/-- Python `re.search` for a pattern `PRE(\d+)_`, leftmost match. -/
def reSearchSes (pre : List Char) : List Char → Option Nat
  | [] => none
  | c :: t =>
    match sesGroupAt pre (c :: t) with
    | some n => some n
    | none => reSearchSes pre t

/-- Python `re.search` for a plain literal pattern: substring containment. -/
def containsSeq (pat : List Char) : List Char → Bool
  | [] => pat.isEmpty
  | c :: t => pat.isPrefixOf (c :: t) || containsSeq pat t

/-- Does `.*TAIL` match starting here?  `.` matches any character except a
newline, and only existence of a match matters. -/
def dotStarTail (tail : List Char) : List Char → Bool
  | [] => tail.isEmpty
  | c :: t => tail.isPrefixOf (c :: t) || (c != '\n' && dotStarTail tail t)

/-- Python `re.search` for a pattern `HEAD.*TAIL` (existence only): some start
position carries the literal `HEAD`, followed, with no intervening newline, by
the literal `TAIL`. -/
def searchDotStar (head tail : List Char) : List Char → Bool
  | [] => head.isEmpty && tail.isEmpty
  | c :: t =>
    (head.isPrefixOf (c :: t) && dotStarTail tail ((c :: t).drop head.length)) ||
      searchDotStar head tail t

/-- A pattern of the `MODALITY_ORDER` list: either a literal, or a
`HEAD.*TAIL` shape. -/
inductive ModPattern
  | lit (p : List Char)
  | dotStar (head tail : List Char)

/-- The fixed modality priority list of `index.py`. -/
def MODALITY_ORDER : List ModPattern :=
  [ModPattern.lit ("_T1w".toList),
   ModPattern.dotStar ("task-qct".toList) ("_bold".toList),
   ModPattern.dotStar ("task-bht".toList) ("_bold".toList),
   ModPattern.dotStar ("task_rest".toList) ("_bold".toList),
   ModPattern.lit ("_T2w".toList)]

/-- Whether one modality pattern matches the filename (Python `re.search`
truthiness). -/
def modMatches (p : ModPattern) (s : List Char) : Bool :=
  match p with
  | ModPattern.lit q => containsSeq q s
  | ModPattern.dotStar h t => searchDotStar h t s

/-- Index of the first pattern of `MODALITY_ORDER` matching the filename, or
the length of the list when none matches — exactly the loop of
`define_order`. -/
def modalityPriority (s : List Char) : Nat :=
  MODALITY_ORDER.findIdx (fun p => modMatches p s)

/-- Python `int(str)` applied to a string of regex word characters: a nonempty
digit string, with single underscores allowed between digits (PEP 515);
anything else raises `ValueError`.  Tail of the parse, after a first digit. -/
def pyIntGo : List Char → Nat → Option Nat
  | [], acc => some acc
  | '_' :: c :: t, acc =>
    if c.isDigit then pyIntGo t (10 * acc + (c.toNat - 48)) else none
  | c :: t, acc =>
    if c.isDigit then pyIntGo t (10 * acc + (c.toNat - 48)) else none

/-- Python `int(str)` on a string of regex word characters. -/
def pyInt : List Char → Option Nat
  | [] => none
  | c :: t => if c.isDigit then pyIntGo t (c.toNat - 48) else none

/-- The exceptions the modelled code can raise. -/
inductive PyError
  /-- `AttributeError`: calling `.group(1)` on the `None` returned by a failed
  `re.search`. -/
  | attributeNone
  /-- `ValueError`: `int()` applied to a non-numeric string, or `random.sample`
  asked for more items than the population holds. -/
  | valueError
deriving Repr, DecidableEq

/-- The sort key of `define_order`:
subject id, modality priority, session-type priority, session number, run id.
Python compares such tuples lexicographically, strings by code point. -/
abbrev SortKey := List Char × Nat × Nat × Nat × Nat

/-- The run id of `define_order`:
`run_id = int(run_match.group(1)) if run_match else 0`; `none` when the `int`
call raises `ValueError` on the capture. -/
def runIdOfFile (s : List Char) : Option Nat :=
  match reSearchWordGroup ("run-".toList) s with
  | none => some 0
  | some g => pyInt g

/-- The sort-key extractor `define_order` of `index.py`:
subject id from `sub-(\w+)_` (raising if absent), modality priority from the
first matching `MODALITY_ORDER` pattern, run id from `run-(\w+)_` parsed by
`int` (defaulting to 0 when absent), then the session cascade
`ses-excl(\d+)_` / `ses-pilot(\d+)_` / `ses-(\d+)_` / none, first match
wins. -/
def define_order (file : String) : Except PyError SortKey :=
  let s := file.toList
  match reSearchWordGroup ("sub-".toList) s with
  | none => Except.error PyError.attributeNone
  | some subject_id =>
    let modality_priority := modalityPriority s
    match runIdOfFile s with
    | none => Except.error PyError.valueError
    | some run_id =>
      match reSearchSes ("ses-excl".toList) s with
      | some n => Except.ok (subject_id, modality_priority, 1, n, run_id)
      | none =>
        match reSearchSes ("ses-pilot".toList) s with
        | some n => Except.ok (subject_id, modality_priority, 2, n, run_id)
        | none =>
          match reSearchSes ("ses-".toList) s with
          | some n => Except.ok (subject_id, modality_priority, 3, n, run_id)
          | none => Except.ok (subject_id, modality_priority, 4, 0, run_id)

/-- The key a file sorts under (only consulted where extraction succeeds). -/
def keyOf (f : String) : SortKey :=
  ((define_order f).toOption).getD ([], 0, 0, 0, 0)

/-- Subject-id component of a file's sort key. -/
def subjOf (f : String) : List Char := (keyOf f).1

/-- Modality-priority component of a file's sort key. -/
def modOf (f : String) : Nat := (keyOf f).2.1

/-- Python string `<`: lexicographic by code point, a proper prefix sorts
first. -/
def strLt : List Char → List Char → Bool
  | _, [] => false
  | [], _ :: _ => true
  | a :: as, b :: bs => decide (a < b) || (a == b && strLt as bs)

/-- Strict lexicographic combination of two strict orders, as Python compares
tuples. -/
def pairLt {α β : Type} [BEq α] (la : α → α → Bool) (lb : β → β → Bool)
    (x y : α × β) : Bool :=
  la x.1 y.1 || (x.1 == y.1 && lb x.2 y.2)

/-- Strict `<` on `Nat`, as a boolean. -/
def natLtB (a b : Nat) : Bool := decide (a < b)

/-- Python `<` on sort-key tuples. -/
def keyLt : SortKey → SortKey → Bool :=
  pairLt strLt (pairLt natLtB (pairLt natLtB (pairLt natLtB natLtB)))

/-- The non-strict comparison under which Python's stable sort orders the
files: `a` may precede `b` unless `b`'s key is strictly below `a`'s. -/
def fileLe (a b : String) : Bool := !(keyLt (keyOf b) (keyOf a))

/-- Stable insertion of `a` into a `fileLe`-sorted list: `a` lands before the
first element it may precede, hence after every earlier element of equal key. -/
def insertLe (a : String) : List String → List String
  | [] => [a]
  | b :: t => if fileLe a b then a :: b :: t else b :: insertLe a t

/-- Stable ascending sort by `fileLe` (insertion sort).  Python's `list.sort`
is also a stable ascending comparison sort, and the output sequence of a
stable sort is uniquely determined by the input and the (total, transitive)
comparison, so this models `list.sort(key=define_order)` exactly. -/
def sortLe : List String → List String
  | [] => []
  | a :: t => insertLe a (sortLe t)

/-- Model of `list_of_files.sort(key=define_order)` as performed by
`list_individual_reports`: the key of each element is extracted (the first
failing extraction raises), then the list is sorted stably in ascending key
order. -/
def sortReports (l : List String) : Except PyError (List String) :=
  match l.findSome? (fun f =>
      match define_order f with
      | Except.error e => some e
      | Except.ok _ => none) with
  | some e => Except.error e
  | none => Except.ok (sortLe l)

/-- The empty string, an irrelevant default for indexed access. -/
def emptyStr : String := ""

/-- The session-type priority exactly as the spec's cascade describes it
(first match wins): a spec-side definition, to be compared with
`define_order`. -/
def specSessionType (f : String) : Nat :=
  match reSearchSes ("ses-excl".toList) f.toList with
  | some _ => 1
  | none =>
    match reSearchSes ("ses-pilot".toList) f.toList with
    | some _ => 2
    | none =>
      match reSearchSes ("ses-".toList) f.toList with
      | some _ => 3
      | none => 4

/-- The session number exactly as the spec's cascade describes it: the digits
captured by the first matching session pattern, 0 when none matches. -/
def specSessionNumber (f : String) : Nat :=
  match reSearchSes ("ses-excl".toList) f.toList with
  | some n => n
  | none =>
    match reSearchSes ("ses-pilot".toList) f.toList with
    | some n => n
    | none =>
      match reSearchSes ("ses-".toList) f.toList with
      | some n => n
      | none => 0

/-- State of the process-global pseudorandom generator of Python's `random`
module.  The module's Mersenne Twister is modelled by a deterministic
linear-congruential generator: every property verified here depends only on
seeding being a function of the seed alone and on draws advancing the state
deterministically, never on the numeric stream itself. -/
abbrev RandState := Nat

/-- One step of the modelled generator. -/
def lcgNext (g : RandState) : RandState :=
  (6364136223846793005 * g + 1442695040888963407) % (2 ^ 64)

/-- Model of `random.seed(n)`: the resulting state is a function of the seed
alone; the previous state is discarded. -/
def pyRandomSeed (n : Int) : RandState := (n % (2 ^ 64)).toNat

/-- Model of the draw `random._randbelow(n)`: a value in `[0, n)` (for
`n > 0`), advancing the state. -/
def pyRandbelow (g : RandState) (n : Nat) : Nat × RandState :=
  (lcgNext g % n, lcgNext g)

/-- In-place swap of positions `i` and `j` of a list. -/
def swapL (l : List String) (i j : Nat) : List String :=
  (l.set i (l.getD j emptyStr)).set j (l.getD i emptyStr)

/-- The loop of `random.shuffle` (Fisher–Yates): for `i = n-1, ..., 1`, swap
position `i` with a drawn position `j < i + 1`. -/
def pyShuffleGo : Nat → RandState → List String → List String × RandState
  | 0, g, l => (l, g)
  | i + 1, g, l =>
    pyShuffleGo i (pyRandbelow g (i + 2)).2 (swapL l (i + 1) (pyRandbelow g (i + 2)).1)

/-- Model of `random.shuffle(x)`. -/
def pyShuffle (g : RandState) (l : List String) : List String × RandState :=
  pyShuffleGo (l.length - 1) g l

/-- The selection loop of CPython's `random.sample` (pool algorithm): `m` is
the number of not-yet-consumed slots at the front of `pool`; each step draws
`j < m`, picks `pool[j]`, and moves the last active slot into position `j`. -/
def pySampleGo : Nat → RandState → List String → Nat → List String × RandState
  | 0, g, _, _ => ([], g)
  | kk + 1, g, pool, m =>
    (pool.getD (pyRandbelow g m).1 emptyStr ::
        (pySampleGo kk (pyRandbelow g m).2
          (pool.set (pyRandbelow g m).1 (pool.getD (m - 1) emptyStr)) (m - 1)).1,
      (pySampleGo kk (pyRandbelow g m).2
          (pool.set (pyRandbelow g m).1 (pool.getD (m - 1) emptyStr)) (m - 1)).2)

/-- Model of `random.sample(population, k)`: `ValueError` when `k` exceeds the
population size, otherwise `k` selections without replacement. -/
def pySample (g : RandState) (population : List String) (k : Nat) :
    Except PyError (List String × RandState) :=
  if k ≤ population.length then
    Except.ok (pySampleGo k g population population.length)
  else Except.error PyError.valueError

/-- Result of a call that may mutate the caller's list argument: the return
value, the post-call state of the caller's argument, and the generator
state. -/
structure RCall where
  ret : List String
  argAfter : List String
  rng : RandState
deriving Repr, DecidableEq

/-- `shuffle_reports(list_of_files, random_seed)` of `index.py`: reseeds the
global generator from `random_seed` alone, deep-copies the list, shuffles the
copy in place and returns it.  `argAfter` is the caller's `list_of_files`
after the call — untouched, because the shuffle happens on the copy.  The
parameter `g` is the generator state left by prior calls; the reseed makes it
irrelevant. -/
def shuffle_reports (g : RandState) (list_of_files : List String)
    (random_seed : Int) : RCall :=
  let g0 := pyRandomSeed random_seed
  let shuffled_list := list_of_files
  { ret := (pyShuffle g0 shuffled_list).1,
    argAfter := list_of_files,
    rng := (pyShuffle g0 shuffled_list).2 }

/-- `anonymize_reports(shuffled_list, dataset_name)` of `index.py`: a fresh
list of labels `A-<dataset>_<i>` for `i = 1..N`.  The second component is the
caller's list after the call — the comprehension reads only its length and
builds a new list. -/
def anonymize_reports (shuffled_list : List String) (dataset_name : String) :
    List String × List String :=
  ((List.range' 1 shuffled_list.length).map
      (fun i => ("A-") ++ dataset_name ++ ("_") ++ toString i),
    shuffled_list)

/-- Python `str.replace(pat, rep)` for a nonempty `pat`: replace every
non-overlapping occurrence, scanning from the left. -/
def strReplace (pat rep : List Char) : List Char → List Char
  | [] => []
  | c :: t =>
    if pat ≠ [] ∧ pat.isPrefixOf (c :: t) then
      rep ++ strReplace pat rep (t.drop (pat.length - 1))
    else c :: strReplace pat rep t
termination_by s => s.length
decreasing_by
  · simp only [List.length_drop, List.length_cons]
    omega
  · simp only [List.length_cons]
    omega

/-- The condition-1 subset:
`list_condition1 = [s for s in original_list if "condition1" in s]`. -/
def cond1Of (l : List String) : List String :=
  l.filter (fun s => containsSeq ("condition1".toList) s.toList)

/-- The condition-2 counterpart of a condition-1 name:
`s.replace("condition1", "condition2")`. -/
def toCond2 (s : String) : String :=
  String.mk (strReplace ("condition1".toList) ("condition2".toList) s.toList)

/-- `repeat_reports(original_list, number_of_subjects_to_repeat, two_folders)`
of `index.py`: reseeds the generator from the hard-coded `day + time` alone,
samples the repeats (from the condition-1 subset in two-folder mode, deriving
the condition-2 names by substituting `condition1` with `condition2`), then
`extend`s the caller's list in place and returns that same list — hence
`argAfter = ret`.  The `demo.txt` debug write of the two-folder branch is
file output only, with no effect on the lists, and is not modelled.  The
parameter `g` is the generator state left by prior calls; the reseed makes it
irrelevant. -/
def repeat_reports (g : RandState) (original_list : List String)
    (number_of_subjects_to_repeat : Nat) (two_folders : Bool) :
    Except PyError RCall :=
  let day : Int := 220830
  let time : Int := 543417
  let g0 := pyRandomSeed (day + time)
  if two_folders then
    let list_condition1 := cond1Of original_list
    match pySample g0 list_condition1 number_of_subjects_to_repeat with
    | Except.error e => Except.error e
    | Except.ok r =>
      let subset_rep_condition2 := r.1.map toCond2
      Except.ok { ret := original_list ++ (r.1 ++ subset_rep_condition2),
                  argAfter := original_list ++ (r.1 ++ subset_rep_condition2),
                  rng := r.2 }
  else
    match pySample g0 original_list number_of_subjects_to_repeat with
    | Except.error e => Except.error e
    | Except.ok r =>
      Except.ok { ret := original_list ++ r.1,
                  argAfter := original_list ++ r.1,
                  rng := r.2 }

/-- `strLt` is irreflexive. -/
theorem strLt_irrefl : ∀ s : List Char, strLt s s = false
  | [] => rfl
  | c :: t => by simp [strLt, strLt_irrefl t]

/-- `strLt` is transitive. -/
theorem strLt_trans : ∀ (a b c : List Char),
    strLt a b = true → strLt b c = true → strLt a c = true
  | _, b, [], _, h2 => by simp [strLt] at h2
  | a, [], _ :: _, h1, _ => by simp [strLt] at h1
  | [], _ :: _, _ :: _, _, _ => rfl
  | a :: as, b :: bs, c :: cs, h1, h2 => by
    simp only [strLt, Bool.or_eq_true, decide_eq_true_eq, Bool.and_eq_true,
      beq_iff_eq] at h1 h2 ⊢
    rcases h1 with h1 | ⟨rfl, h1⟩
    · rcases h2 with h2 | ⟨rfl, h2⟩
      · exact Or.inl (lt_trans h1 h2)
      · exact Or.inl h1
    · rcases h2 with h2 | ⟨rfl, h2⟩
      · exact Or.inl h2
      · exact Or.inr ⟨rfl, strLt_trans as bs cs h1 h2⟩

/-- Two strings neither of which is below the other are equal. -/
theorem strLt_connex : ∀ (a b : List Char),
    strLt a b = false → strLt b a = false → a = b
  | [], [], _, _ => rfl
  | [], _ :: _, h1, _ => by simp [strLt] at h1
  | _ :: _, [], _, h2 => by simp [strLt] at h2
  | a :: as, b :: bs, h1, h2 => by
    rcases lt_trichotomy a b with h | h | h
    · simp [strLt, h] at h1
    · subst h
      simp only [strLt, lt_self_iff_false, decide_False, beq_self_eq_true,
        Bool.true_and, Bool.false_or] at h1 h2
      rw [strLt_connex as bs h1 h2]
    · simp [strLt, h] at h2

/-- Lexicographic combination preserves irreflexivity. -/
theorem pairLt_irrefl {α β : Type} [BEq α] [LawfulBEq α]
    {la : α → α → Bool} {lb : β → β → Bool}
    (ha : ∀ x, la x x = false) (hb : ∀ x, lb x x = false) (x : α × β) :
    pairLt la lb x x = false := by
  simp [pairLt, ha, hb]

/-- Lexicographic combination preserves transitivity. -/
theorem pairLt_trans {α β : Type} [BEq α] [LawfulBEq α]
    {la : α → α → Bool} {lb : β → β → Bool}
    (ha : ∀ x y z, la x y = true → la y z = true → la x z = true)
    (hb : ∀ x y z, lb x y = true → lb y z = true → lb x z = true)
    (x y z : α × β) :
    pairLt la lb x y = true → pairLt la lb y z = true → pairLt la lb x z = true := by
  intro h1 h2
  simp only [pairLt, Bool.or_eq_true, Bool.and_eq_true, beq_iff_eq] at h1 h2 ⊢
  rcases h1 with h1 | ⟨e1, h1⟩
  · rcases h2 with h2 | ⟨e2, h2⟩
    · exact Or.inl (ha _ _ _ h1 h2)
    · exact Or.inl (e2 ▸ h1)
  · rcases h2 with h2 | ⟨e2, h2⟩
    · exact Or.inl (by rw [e1]; exact h2)
    · exact Or.inr ⟨e1.trans e2, hb _ _ _ h1 h2⟩

/-- Lexicographic combination preserves connexity. -/
theorem pairLt_connex {α β : Type} [BEq α] [LawfulBEq α]
    {la : α → α → Bool} {lb : β → β → Bool}
    (ha : ∀ x y, la x y = false → la y x = false → x = y)
    (hb : ∀ x y, lb x y = false → lb y x = false → x = y) (x y : α × β) :
    pairLt la lb x y = false → pairLt la lb y x = false → x = y := by
  intro h1 h2
  rw [pairLt, Bool.or_eq_false_iff] at h1 h2
  have e : x.1 = y.1 := ha _ _ h1.1 h2.1
  have hx : lb x.2 y.2 = false := by
    have h := h1.2
    rwa [e, beq_self_eq_true, Bool.true_and] at h
  have hy : lb y.2 x.2 = false := by
    have h := h2.2
    rwa [← e, beq_self_eq_true, Bool.true_and] at h
  exact Prod.ext e (hb _ _ hx hy)

/-- `natLtB` is irreflexive. -/
theorem natLtB_irrefl (x : Nat) : natLtB x x = false := by simp [natLtB]

/-- `natLtB` is transitive. -/
theorem natLtB_trans (x y z : Nat) :
    natLtB x y = true → natLtB y z = true → natLtB x z = true := by
  simp only [natLtB, decide_eq_true_eq]; omega

/-- `natLtB` is connex. -/
theorem natLtB_connex (x y : Nat) :
    natLtB x y = false → natLtB y x = false → x = y := by
  simp only [natLtB, decide_eq_false_iff_not]; omega

/-- `keyLt` is irreflexive. -/
theorem keyLt_irrefl (k : SortKey) : keyLt k k = false :=
  pairLt_irrefl strLt_irrefl
    (pairLt_irrefl natLtB_irrefl
      (pairLt_irrefl natLtB_irrefl
        (pairLt_irrefl natLtB_irrefl natLtB_irrefl))) k

/-- `keyLt` is transitive. -/
theorem keyLt_trans (x y z : SortKey) :
    keyLt x y = true → keyLt y z = true → keyLt x z = true :=
  pairLt_trans strLt_trans
    (pairLt_trans natLtB_trans
      (pairLt_trans natLtB_trans
        (pairLt_trans natLtB_trans natLtB_trans))) x y z

/-- Two keys neither of which is below the other are equal. -/
theorem keyLt_connex (x y : SortKey) :
    keyLt x y = false → keyLt y x = false → x = y :=
  pairLt_connex strLt_connex
    (pairLt_connex natLtB_connex
      (pairLt_connex natLtB_connex
        (pairLt_connex natLtB_connex natLtB_connex))) x y

/-- The sort comparison is transitive. -/
theorem fileLe_trans (a b c : String) (h1 : fileLe a b = true)
    (h2 : fileLe b c = true) : fileLe a c = true := by
  rw [fileLe, Bool.not_eq_true'] at h1 h2 ⊢
  cases hbc : keyLt (keyOf b) (keyOf c) with
  | false =>
    have e : keyOf b = keyOf c := keyLt_connex _ _ hbc h2
    rw [← e]; exact h1
  | true =>
    cases hca : keyLt (keyOf c) (keyOf a) with
    | false => rfl
    | true =>
      have h := keyLt_trans _ _ _ hbc hca
      rw [h] at h1; cases h1

/-- The sort comparison is total. -/
theorem fileLe_total (a b : String) : (fileLe a b || fileLe b a) = true := by
  rw [fileLe, fileLe]
  cases hab : keyLt (keyOf b) (keyOf a) with
  | false => simp
  | true =>
    cases hba : keyLt (keyOf a) (keyOf b) with
    | false => simp
    | true =>
      have h := keyLt_trans _ _ _ hab hba
      rw [keyLt_irrefl] at h; cases h

/-- A file that may precede another has a subject id at most the other's. -/
theorem fileLe_subj (a b : String) (h : fileLe a b = true) :
    strLt (subjOf a) (subjOf b) = true ∨ subjOf a = subjOf b := by
  rw [fileLe, Bool.not_eq_true'] at h
  rw [keyLt, pairLt, Bool.or_eq_false_iff] at h
  cases hab : strLt (subjOf a) (subjOf b) with
  | true => exact Or.inl rfl
  | false => exact Or.inr (strLt_connex _ _ hab h.1)

/-- Among files of one subject, the comparison orders modality priorities. -/
theorem fileLe_mod (a b : String) (h : fileLe a b = true)
    (e : subjOf a = subjOf b) : modOf a ≤ modOf b := by
  rw [fileLe, Bool.not_eq_true'] at h
  rw [keyLt, pairLt, Bool.or_eq_false_iff] at h
  have e' : (keyOf b).1 = (keyOf a).1 := e.symm
  have h2 := h.2
  rw [e', beq_self_eq_true, Bool.true_and, pairLt, Bool.or_eq_false_iff] at h2
  have h3 := h2.1
  rw [natLtB, decide_eq_false_iff_not] at h3
  show (keyOf a).2.1 ≤ (keyOf b).2.1
  omega

/-- Membership after insertion. -/
theorem mem_insertLe (a x : String) : ∀ l : List String,
    x ∈ insertLe a l → x = a ∨ x ∈ l
  | [] => by simp [insertLe]
  | b :: t => by
    rw [insertLe]
    split
    · intro h
      rcases List.mem_cons.mp h with h | h
      · exact Or.inl h
      · exact Or.inr h
    · intro h
      rcases List.mem_cons.mp h with h | h
      · exact Or.inr (h ▸ List.mem_cons_self b t)
      · rcases mem_insertLe a x t h with h | h
        · exact Or.inl h
        · exact Or.inr (List.mem_cons_of_mem b h)

/-- Insertion preserves sortedness. -/
theorem pairwise_insertLe (a : String) : ∀ l : List String,
    l.Pairwise (fun u v => fileLe u v = true) →
    (insertLe a l).Pairwise (fun u v => fileLe u v = true)
  | [], _ => by simp [insertLe]
  | b :: t, h => by
    rw [insertLe]
    rcases List.pairwise_cons.mp h with ⟨hb, ht⟩
    split
    · rename_i hab
      refine List.pairwise_cons.mpr ⟨?_, h⟩
      intro x hx
      rcases List.mem_cons.mp hx with rfl | hx
      · exact hab
      · exact fileLe_trans a b x hab (hb x hx)
    · rename_i hab
      have hba : fileLe b a = true := by
        have := fileLe_total a b
        cases hab' : fileLe a b with
        | true => exact absurd hab' hab
        | false => rwa [hab', Bool.false_or] at this
      refine List.pairwise_cons.mpr ⟨?_, pairwise_insertLe a t ht⟩
      intro x hx
      rcases mem_insertLe a x t hx with rfl | hx
      · exact hba
      · exact hb x hx

/-- The insertion sort is sorted. -/
theorem pairwise_sortLe : ∀ l : List String,
    (sortLe l).Pairwise (fun u v => fileLe u v = true)
  | [] => List.Pairwise.nil
  | a :: t => pairwise_insertLe a (sortLe t) (pairwise_sortLe t)

/-- A successful `sortReports` run returns the insertion sort of the input. -/
theorem sortReports_eq (l l' : List String) (h : sortReports l = Except.ok l') :
    l' = sortLe l := by
  rw [sortReports] at h
  split at h
  · cases h
  · injection h with h
    exact h.symm

/-- C1: sorting the example list with `define_order` as sort key puts the
exclusion session first, the pilot session second and the numbered session
last. -/
theorem claim_C1 :
    sortReports
        ["sub-01_ses-02_T1w.html", "sub-01_ses-excl01_T1w.html",
         "sub-01_ses-pilot03_T1w.html"] =
      Except.ok
        ["sub-01_ses-excl01_T1w.html", "sub-01_ses-pilot03_T1w.html",
         "sub-01_ses-02_T1w.html"] := rfl

/-- C2: after a successful sort with `define_order` as key, reports sharing a
subject id are contiguous (any report between two reports of one subject has
that same subject), and within one subject the modality priorities follow the
fixed priority list: for every pair of positions `i < j` holding one subject's
reports, the modality priority at `i` is at most the one at `j`. -/
theorem claim_C2 (l l' : List String) (h : sortReports l = Except.ok l') :
    (∀ i j k : Nat, i < j → j < k → k < l'.length →
      subjOf (l'.getD i emptyStr) = subjOf (l'.getD k emptyStr) →
      subjOf (l'.getD j emptyStr) = subjOf (l'.getD i emptyStr)) ∧
    (∀ i j : Nat, i < j → j < l'.length →
      subjOf (l'.getD i emptyStr) = subjOf (l'.getD j emptyStr) →
      modOf (l'.getD i emptyStr) ≤ modOf (l'.getD j emptyStr)) := by
  have e := sortReports_eq l l' h
  subst e
  have hp := List.pairwise_iff_getElem.mp (pairwise_sortLe l)
  constructor
  · intro i j k hij hjk hk
    have hi : i < (sortLe l).length := by omega
    have hj : j < (sortLe l).length := by omega
    have hij' := hp i j hi hj hij
    have hjk' := hp j k hj hk hjk
    rw [List.getD_eq_getElem _ _ hi, List.getD_eq_getElem _ _ hj,
      List.getD_eq_getElem _ _ hk]
    intro hik
    rcases fileLe_subj _ _ hij' with h1 | h1
    · rcases fileLe_subj _ _ hjk' with h2 | h2
      · exfalso
        have h3 := strLt_trans _ _ _ h1 h2
        rw [← hik] at h3
        rw [strLt_irrefl] at h3
        cases h3
      · exact h2.trans hik.symm
    · exact h1.symm
  · intro i j hij hj
    have hi : i < (sortLe l).length := by omega
    have hij' := hp i j hi hj hij
    rw [List.getD_eq_getElem _ _ hi, List.getD_eq_getElem _ _ hj]
    intro hij2
    exact fileLe_mod _ _ hij' hij2

/-- Witness for C2 at the example list: contiguity at indices 0 < 1 < 2, and
modality order for the pair (0, 2) ending at the last element. -/
theorem claim_C2_witness :
    subjOf ((["sub-01_ses-excl01_T1w.html", "sub-01_ses-pilot03_T1w.html",
        "sub-01_ses-02_T1w.html"] : List String).getD 1 emptyStr) =
      subjOf ((["sub-01_ses-excl01_T1w.html", "sub-01_ses-pilot03_T1w.html",
        "sub-01_ses-02_T1w.html"] : List String).getD 0 emptyStr) ∧
    modOf ((["sub-01_ses-excl01_T1w.html", "sub-01_ses-pilot03_T1w.html",
        "sub-01_ses-02_T1w.html"] : List String).getD 0 emptyStr) ≤
      modOf ((["sub-01_ses-excl01_T1w.html", "sub-01_ses-pilot03_T1w.html",
        "sub-01_ses-02_T1w.html"] : List String).getD 2 emptyStr) := by
  constructor
  · exact (claim_C2
      ["sub-01_ses-02_T1w.html", "sub-01_ses-excl01_T1w.html",
       "sub-01_ses-pilot03_T1w.html"]
      ["sub-01_ses-excl01_T1w.html", "sub-01_ses-pilot03_T1w.html",
       "sub-01_ses-02_T1w.html"] rfl).1 0 1 2 (by omega) (by omega)
      (by decide) rfl
  · exact (claim_C2
      ["sub-01_ses-02_T1w.html", "sub-01_ses-excl01_T1w.html",
       "sub-01_ses-pilot03_T1w.html"]
      ["sub-01_ses-excl01_T1w.html", "sub-01_ses-pilot03_T1w.html",
       "sub-01_ses-02_T1w.html"] rfl).2 0 2 (by omega) (by decide) rfl

/-- C3 counterexample to the claim as stated: this filename contains a
`sub-<id>_` segment, yet `define_order` produces no key at all — the `run-`
capture is `ab`, and `int` raises `ValueError` on it. -/
theorem claim_C3_cex :
    (reSearchWordGroup ("sub-".toList) ("sub-01_run-ab_x.html").toList).isSome
        = true ∧
    define_order ("sub-01_run-ab_x.html") = Except.error PyError.valueError :=
  ⟨rfl, rfl⟩

/-- C3 (amended): for every filename containing a `sub-<id>_` segment whose
`run-(\w+)_` capture, when present, parses as a Python integer, `define_order`
returns a key whose session-type priority and session number follow the
first-match-wins cascade `ses-excl(\d+)_` ↦ (1, digits), `ses-pilot(\d+)_` ↦
(2, digits), `ses-(\d+)_` ↦ (3, digits), otherwise (4, 0). -/
theorem claim_C3 (f : String)
    (hsub : (reSearchWordGroup ("sub-".toList) f.toList).isSome = true)
    (hrun : (runIdOfFile f.toList).isSome = true) :
    ∃ key : SortKey, define_order f = Except.ok key ∧
      key.2.2.1 = specSessionType f ∧ key.2.2.2.1 = specSessionNumber f := by
  obtain ⟨sid, hs⟩ := Option.isSome_iff_exists.mp hsub
  obtain ⟨r, hr⟩ := Option.isSome_iff_exists.mp hrun
  cases he : reSearchSes ("ses-excl".toList) f.toList with
  | some n =>
    refine ⟨(sid, modalityPriority f.toList, 1, n, r), ?_, ?_, ?_⟩
    · simp only [define_order, hs, hr, he]
    · simp only [specSessionType, he]
    · simp only [specSessionNumber, he]
  | none =>
    cases hp : reSearchSes ("ses-pilot".toList) f.toList with
    | some n =>
      refine ⟨(sid, modalityPriority f.toList, 2, n, r), ?_, ?_, ?_⟩
      · simp only [define_order, hs, hr, he, hp]
      · simp only [specSessionType, he, hp]
      · simp only [specSessionNumber, he, hp]
    | none =>
      cases hn : reSearchSes ("ses-".toList) f.toList with
      | some n =>
        refine ⟨(sid, modalityPriority f.toList, 3, n, r), ?_, ?_, ?_⟩
        · simp only [define_order, hs, hr, he, hp, hn]
        · simp only [specSessionType, he, hp, hn]
        · simp only [specSessionNumber, he, hp, hn]
      | none =>
        refine ⟨(sid, modalityPriority f.toList, 4, 0, r), ?_, ?_, ?_⟩
        · simp only [define_order, hs, hr, he, hp, hn]
        · simp only [specSessionType, he, hp, hn]
        · simp only [specSessionNumber, he, hp, hn]

/-- Witness for C3 (amended) at a pilot-session filename. -/
theorem claim_C3_witness :
    ∃ key : SortKey,
      define_order ("sub-01_ses-pilot03_T1w.html") = Except.ok key ∧
      key.2.2.1 = specSessionType ("sub-01_ses-pilot03_T1w.html") ∧
      key.2.2.2.1 = specSessionNumber ("sub-01_ses-pilot03_T1w.html") :=
  claim_C3 ("sub-01_ses-pilot03_T1w.html") rfl rfl

/-- C4: when no `sub-<id>_` segment matches, `define_order` raises the
pattern-not-found error (the `AttributeError` from `.group(1)` on `None`) and
produces no result; when the segment is present, that error is never
raised. -/
theorem claim_C4 (f : String) :
    (reSearchWordGroup ("sub-".toList) f.toList = none →
      define_order f = Except.error PyError.attributeNone) ∧
    ((reSearchWordGroup ("sub-".toList) f.toList).isSome = true →
      define_order f ≠ Except.error PyError.attributeNone) := by
  constructor
  · intro h
    simp only [define_order, h]
  · intro h
    obtain ⟨sid, hs⟩ := Option.isSome_iff_exists.mp h
    simp only [define_order, hs]
    split
    · simp
    · split
      · simp
      · split
        · simp
        · split <;> simp

/-- Witness for C4: a filename without the segment raises the pattern error, a
well-formed one does not. -/
theorem claim_C4_witness :
    define_order ("report.html") = Except.error PyError.attributeNone ∧
    define_order ("sub-01_ses-02_T1w.html") ≠
      Except.error PyError.attributeNone :=
  ⟨(claim_C4 ("report.html")).1 rfl,
   (claim_C4 ("sub-01_ses-02_T1w.html")).2 rfl⟩

/-- C5: `shuffle_reports` reseeds the generator from its seed argument before
shuffling, so its output is a function of the list and the seed alone — the
generator state left by prior calls is irrelevant. -/
theorem claim_C5 (g1 g2 : RandState) (l : List String) (seed : Int) :
    (shuffle_reports g1 l seed).ret = (shuffle_reports g2 l seed).ret := rfl

/-- Prepending the element displaced to position `j` permutes with prepending
the new element. -/
theorem cons_set_perm (a : String) : ∀ (t : List String) (j : Nat),
    j < t.length → List.Perm ((t.getD j emptyStr) :: t.set j a) (a :: t)
  | [], j, h => by simp at h
  | b :: t, 0, _ => by
    simp only [List.getD_cons_zero, List.set_cons_zero]
    exact List.Perm.swap a b t
  | b :: t, j + 1, h => by
    simp only [List.getD_cons_succ, List.set_cons_succ]
    have h1 := List.Perm.swap b (t.getD j emptyStr) (t.set j a)
    have h2 := List.Perm.cons b
      (cons_set_perm a t j (by rw [List.length_cons] at h; omega))
    exact h1.trans (h2.trans (List.Perm.swap a b t))

/-- An in-place swap of two valid positions is a permutation. -/
theorem swapL_perm : ∀ (l : List String) (i j : Nat),
    i < l.length → j < l.length → List.Perm (swapL l i j) l
  | [], _, _, hi, _ => by simp at hi
  | a :: t, 0, 0, _, _ => by simp [swapL]
  | a :: t, 0, j + 1, _, hj => by
    rw [swapL]
    simp only [List.getD_cons_succ, List.getD_cons_zero, List.set_cons_zero,
      List.set_cons_succ]
    exact cons_set_perm a t j (by rw [List.length_cons] at hj; omega)
  | a :: t, i + 1, 0, hi, _ => by
    rw [swapL]
    simp only [List.getD_cons_succ, List.getD_cons_zero, List.set_cons_zero,
      List.set_cons_succ]
    exact cons_set_perm a t i (by rw [List.length_cons] at hi; omega)
  | a :: t, i + 1, j + 1, hi, hj => by
    rw [swapL]
    simp only [List.getD_cons_succ, List.set_cons_succ]
    exact List.Perm.cons a
      (swapL_perm t i j (by rw [List.length_cons] at hi; omega)
        (by rw [List.length_cons] at hj; omega))

/-- The Fisher–Yates loop permutes the list. -/
theorem pyShuffleGo_perm : ∀ (i : Nat) (g : RandState) (l : List String),
    i < l.length → List.Perm (pyShuffleGo i g l).1 l
  | 0, g, l, _ => List.Perm.refl l
  | i + 1, g, l, h => by
    have hj : (pyRandbelow g (i + 2)).1 < i + 2 := by
      simp only [pyRandbelow]
      exact Nat.mod_lt _ (by omega)
    have hlen : (swapL l (i + 1) (pyRandbelow g (i + 2)).1).length = l.length := by
      simp [swapL]
    have h1 := pyShuffleGo_perm i (pyRandbelow g (i + 2)).2
      (swapL l (i + 1) (pyRandbelow g (i + 2)).1) (by rw [hlen]; omega)
    have h2 := swapL_perm l (i + 1) (pyRandbelow g (i + 2)).1 h (by omega)
    simp only [pyShuffleGo]
    exact h1.trans h2

/-- The modelled `random.shuffle` permutes the list. -/
theorem pyShuffle_perm (g : RandState) (l : List String) :
    List.Perm (pyShuffle g l).1 l := by
  cases l with
  | nil => exact List.Perm.refl []
  | cons a t =>
    exact pyShuffleGo_perm ((a :: t).length - 1) g (a :: t)
      (by rw [List.length_cons]
          omega)

/-- C6: `shuffle_reports` leaves the caller's list untouched (it shuffles a
deep copy) and returns a permutation of the input. -/
theorem claim_C6 (g : RandState) (l : List String) (seed : Int) :
    (shuffle_reports g l seed).argAfter = l ∧
    List.Perm (shuffle_reports g l seed).ret l :=
  ⟨rfl, pyShuffle_perm (pyRandomSeed seed) l⟩

/-- C7: `anonymize_reports` builds a parallel list of the same length whose
element at 1-indexed position `i` is `A-<dataset>_<i>`, returns exactly the
example labels on the example input, and does not modify its input list. -/
theorem claim_C7 (l : List String) (ds : String) :
    (anonymize_reports l ds).1.length = l.length ∧
    (∀ i, i < l.length →
      (anonymize_reports l ds).1.getD i emptyStr =
        ("A-") ++ ds ++ ("_") ++ toString (i + 1)) ∧
    (anonymize_reports l ds).2 = l ∧
    (anonymize_reports ["a", "b"] ("DS1")).1 = ["A-DS1_1", "A-DS1_2"] := by
  refine ⟨by simp [anonymize_reports], ?_, rfl, rfl⟩
  intro i hi
  have hi' : i < (anonymize_reports l ds).1.length := by
    simp [anonymize_reports]
    omega
  rw [List.getD_eq_getElem _ _ hi']
  simp only [anonymize_reports, List.getElem_map, List.getElem_range']
  have e : 1 + 1 * i = i + 1 := by omega
  rw [e]

/-- Witness for C7 at a three-element list, position 1. -/
theorem claim_C7_witness :
    (anonymize_reports ["x", "y", "z"] ("D")).1.getD 1 emptyStr =
      ("A-") ++ ("D") ++ ("_") ++ toString (1 + 1) :=
  (claim_C7 ["x", "y", "z"] ("D")).2.1 1 (by decide)

/-- The sample loop returns exactly `k` picks. -/
theorem pySampleGo_length : ∀ (k : Nat) (g : RandState) (pool : List String)
    (m : Nat), (pySampleGo k g pool m).1.length = k
  | 0, _, _, _ => rfl
  | kk + 1, g, pool, m => by
    simp only [pySampleGo, List.length_cons, pySampleGo_length kk]

/-- Every pick of the sample loop is an element of the pool. -/
theorem pySampleGo_mem : ∀ (k : Nat) (g : RandState) (pool : List String)
    (m : Nat), k ≤ m → m ≤ pool.length →
    ∀ s ∈ (pySampleGo k g pool m).1, s ∈ pool
  | 0, _, _, _, _, _, s, hs => by simp [pySampleGo] at hs
  | kk + 1, g, pool, m, hk, hm, s, hs => by
    simp only [pySampleGo, List.mem_cons] at hs
    have hj : (pyRandbelow g m).1 < m := by
      simp only [pyRandbelow]
      exact Nat.mod_lt _ (by omega)
    rcases hs with rfl | hs'
    · have hj' : (pyRandbelow g m).1 < pool.length := by omega
      rw [List.getD_eq_getElem _ _ hj']
      exact List.getElem_mem hj'
    · have hrec := pySampleGo_mem kk (pyRandbelow g m).2
        (pool.set (pyRandbelow g m).1 (pool.getD (m - 1) emptyStr)) (m - 1)
        (by omega) (by rw [List.length_set]; omega) s hs'
      rcases List.mem_or_eq_of_mem_set hrec with h | rfl
      · exact h
      · have hm1 : m - 1 < pool.length := by omega
        rw [List.getD_eq_getElem _ _ hm1]
        exact List.getElem_mem hm1

/-- C8: for `k` at most the list length, single-folder `repeat_reports`
returns a list of length `len + k` whose first `len` elements are the input
unchanged and whose last `k` elements are all members of the input. -/
theorem claim_C8 (g : RandState) (l : List String) (k : Nat)
    (h : k ≤ l.length) :
    ∃ r : RCall, repeat_reports g l k false = Except.ok r ∧
      r.ret.length = l.length + k ∧
      r.ret.take l.length = l ∧
      (∀ s ∈ r.ret.drop l.length, s ∈ l) := by
  refine ⟨{ ret := l ++ (pySampleGo k (pyRandomSeed (220830 + 543417)) l l.length).1,
            argAfter := l ++ (pySampleGo k (pyRandomSeed (220830 + 543417)) l l.length).1,
            rng := (pySampleGo k (pyRandomSeed (220830 + 543417)) l l.length).2 },
    ?_, ?_, ?_, ?_⟩
  · have hs : pySample (pyRandomSeed (220830 + 543417)) l k =
        Except.ok (pySampleGo k (pyRandomSeed (220830 + 543417)) l l.length) := by
      rw [pySample, if_pos h]
    simp only [repeat_reports, Bool.false_eq_true, if_false]
    rw [hs]
  · simp [List.length_append, pySampleGo_length]
  · exact List.take_left l _
  · rw [List.drop_left l _]
    exact pySampleGo_mem k _ l l.length h (Nat.le_refl _)

/-- Witness for C8 at a three-element list with two repeats. -/
theorem claim_C8_witness :
    ∃ r : RCall, repeat_reports 0 ["a", "b", "c"] 2 false = Except.ok r ∧
      r.ret.length = (["a", "b", "c"] : List String).length + 2 ∧
      r.ret.take (["a", "b", "c"] : List String).length = ["a", "b", "c"] ∧
      (∀ s ∈ r.ret.drop (["a", "b", "c"] : List String).length,
        s ∈ (["a", "b", "c"] : List String)) :=
  claim_C8 0 ["a", "b", "c"] 2 (by decide)

/-- C9: for `k` at most the number of condition-1 entries, two-folder
`repeat_reports` appends `k` picks from the condition-1 subset followed by
their condition-2 counterparts (`condition1` replaced by `condition2`), so
the result has length `len + 2k`. -/
theorem claim_C9 (g : RandState) (l : List String) (k : Nat)
    (h : k ≤ (cond1Of l).length) :
    ∃ (r : RCall) (picks : List String),
      repeat_reports g l k true = Except.ok r ∧
      r.ret = l ++ picks ++ picks.map toCond2 ∧
      r.ret.length = l.length + 2 * k ∧
      picks.length = k ∧
      (∀ s ∈ picks, s ∈ cond1Of l) := by
  refine ⟨{ ret := l ++
              ((pySampleGo k (pyRandomSeed (220830 + 543417)) (cond1Of l)
                  (cond1Of l).length).1 ++
                (pySampleGo k (pyRandomSeed (220830 + 543417)) (cond1Of l)
                  (cond1Of l).length).1.map toCond2),
            argAfter := l ++
              ((pySampleGo k (pyRandomSeed (220830 + 543417)) (cond1Of l)
                  (cond1Of l).length).1 ++
                (pySampleGo k (pyRandomSeed (220830 + 543417)) (cond1Of l)
                  (cond1Of l).length).1.map toCond2),
            rng := (pySampleGo k (pyRandomSeed (220830 + 543417)) (cond1Of l)
              (cond1Of l).length).2 },
    (pySampleGo k (pyRandomSeed (220830 + 543417)) (cond1Of l) (cond1Of l).length).1,
    ?_, ?_, ?_, ?_, ?_⟩
  · have hs : pySample (pyRandomSeed (220830 + 543417)) (cond1Of l) k =
        Except.ok (pySampleGo k (pyRandomSeed (220830 + 543417)) (cond1Of l)
          (cond1Of l).length) := by
      rw [pySample, if_pos h]
    simp only [repeat_reports, if_true]
    rw [hs]
  · rw [List.append_assoc]
  · simp only [List.length_append, List.length_map, pySampleGo_length]
    omega
  · exact pySampleGo_length k _ _ _
  · exact pySampleGo_mem k _ _ _ h (Nat.le_refl _)

/-- Witness for C9 at a two-element list with one condition-1 entry. -/
theorem claim_C9_witness :
    ∃ (r : RCall) (picks : List String),
      repeat_reports 0 ["/condition1/sub-1.html", "x"] 1 true = Except.ok r ∧
      r.ret = ["/condition1/sub-1.html", "x"] ++ picks ++ picks.map toCond2 ∧
      r.ret.length = (["/condition1/sub-1.html", "x"] : List String).length + 2 * 1 ∧
      picks.length = 1 ∧
      (∀ s ∈ picks, s ∈ cond1Of ["/condition1/sub-1.html", "x"]) :=
  claim_C9 0 ["/condition1/sub-1.html", "x"] 1 (by decide)

/-- C10 (implicit): `repeat_reports` mutates its argument — the caller's list
after the call equals the returned list, grown by `k` (single-folder) or `2k`
(two-folder) elements while keeping the original elements as its initial
segment — whereas `shuffle_reports` leaves its argument untouched. -/
theorem claim_C10 :
    (∀ (g : RandState) (l : List String) (seed : Int),
      (shuffle_reports g l seed).argAfter = l) ∧
    (∀ (g : RandState) (l : List String) (k : Nat) (tf : Bool) (r : RCall),
      repeat_reports g l k tf = Except.ok r →
      r.argAfter = r.ret ∧ r.ret.take l.length = l ∧
      r.ret.length = l.length + (if tf then 2 * k else k)) := by
  constructor
  · intro g l seed
    rfl
  · intro g l k tf r hr
    cases tf with
    | false =>
      simp only [repeat_reports, Bool.false_eq_true, if_false] at hr
      cases hs : pySample (pyRandomSeed (220830 + 543417)) l k with
      | error e => rw [hs] at hr; exact Except.noConfusion hr
      | ok rr =>
        rw [hs] at hr
        injection hr with hr
        subst hr
        rw [pySample] at hs
        split at hs
        · injection hs with hs
          subst hs
          refine ⟨rfl, List.take_left l _, ?_⟩
          simp [List.length_append, pySampleGo_length]
        · exact Except.noConfusion hs
    | true =>
      simp only [repeat_reports, if_true] at hr
      cases hs : pySample (pyRandomSeed (220830 + 543417)) (cond1Of l) k with
      | error e => rw [hs] at hr; exact Except.noConfusion hr
      | ok rr =>
        rw [hs] at hr
        injection hr with hr
        subst hr
        rw [pySample] at hs
        split at hs
        · injection hs with hs
          subst hs
          refine ⟨rfl, List.take_left l _, ?_⟩
          simp only [List.length_append, List.length_map, pySampleGo_length]
          simp
          omega
        · exact Except.noConfusion hs

/-- Witness for C10: the single-folder repeat call on a two-element list
returns its own grown argument. -/
theorem claim_C10_witness :
    (shuffle_reports 0 ["a"] 5).argAfter = ["a"] ∧
    ∃ r : RCall, repeat_reports 0 ["a", "b"] 1 false = Except.ok r ∧
      (r.argAfter = r.ret ∧ r.ret.take (["a", "b"] : List String).length = ["a", "b"] ∧
        r.ret.length = (["a", "b"] : List String).length + (if false then 2 * 1 else 1)) := by
  refine ⟨claim_C10.1 0 ["a"] 5,
    { ret := ["a", "b", "a"], argAfter := ["a", "b", "a"],
      rng := 12683166651975823002 }, rfl, ?_⟩
  exact claim_C10.2 0 ["a", "b"] 1 false
    { ret := ["a", "b", "a"], argAfter := ["a", "b", "a"],
      rng := 12683166651975823002 } rfl

end Qkay
